import Mathlib

/-!
Verification of the ChronoBot event state model and reconciliation engine
(`src/chromie.py`).

The Python source is shallowly embedded: timestamps and the reference time
are epoch seconds (`Int`; the stored timestamps are produced by
`int(dt.timestamp())`, so second granularity is exact), JSON dictionaries
with optional keys become structures with `Option` fields, the read-site
`dict.get(key, default)` calls become the `…D` accessor functions, and the
in-place list mutations become functions from the old state to the new one.
Fallible command handlers return the resulting state together with an
`Except String` outcome; the error strings are the messages of the source
(typographic apostrophes are used throughout, as in the source’s other
messages).
-/

namespace Chromie

/-- CONFIG: default milestones (days before event), `DEFAULT_MILESTONES`. -/
def DEFAULT_MILESTONES : List Int := [100, 50, 30, 14, 7, 2, 1, 0]

/-- One event record, as stored in the per-guild `events` JSON list.  Only
`name` and `timestamp` are always present (every creation path writes them);
`milestones`, `announced_milestones` and `silenced` are dictionary keys that
may be absent, hence `Option`. -/
structure Event where
  name : String
  timestamp : Int
  milestones : Option (List Int) := none
  announced_milestones : Option (List Int) := none
  silenced : Option Bool := none
deriving Repr, DecidableEq, Inhabited

/-- Read-site accessor for `ev.get("milestones", DEFAULT_MILESTONES)`. -/
def Event.milestonesD (ev : Event) : List Int :=
  ev.milestones.getD DEFAULT_MILESTONES

/-- Read-site accessor for `ev.get("announced_milestones", [])`. -/
def Event.announcedD (ev : Event) : List Int :=
  ev.announced_milestones.getD []

/-- Read-site accessor for the truthiness test `if ev.get("silenced")`. -/
def Event.silencedD (ev : Event) : Bool :=
  ev.silenced.getD false

/-- One guild’s state dictionary, with the keys written by
`get_guild_state`. -/
structure GuildState where
  event_channel_id : Option Int := none
  pinned_message_id : Option Int := none
  events : List Event := []
  welcomed : Bool := false
  timezone : Option String := none
  mention_role_id : Option Int := none
deriving Repr, DecidableEq, Inhabited

/-- The sort key comparison of `sort_events`: ascending by `timestamp`. -/
def eventLE (a b : Event) : Bool := a.timestamp ≤ b.timestamp

/-- Source `sort_events`: `events.sort(key=lambda ev: ev.get("timestamp", 0))`.
Python’s `list.sort` is a stable ascending sort, modelled by Lean’s stable
`List.mergeSort`.  (`timestamp` is always present in our records, so the
`.get` default does not matter.) -/
def sort_events (events : List Event) : List Event :=
  events.mergeSort eventLE

/-- One rendered component of the remaining-time text, mirroring the
f-strings of the source (value, space, unit, and a plural s). -/
def plural (n : Int) (unit : String) : String :=
  toString n ++ " " ++ unit ++ (if n ≠ 1 then "s" else "")

/-- Source `compute_time_left(dt, tz)`: returns `(description, days_left,
event_passed)`.  `dt - now` is embedded as the integer difference `ts - now`
of epoch seconds (both operands are whole seconds here, so
`int(delta.total_seconds())` is exact). -/
def compute_time_left (ts now : Int) : String × Int × Bool :=
  let total_seconds := ts - now
  if total_seconds ≤ 0 then
    ("The event is happening now or has already started! 💕", 0, true)
  else
    let days := total_seconds / 86400
    let rem := total_seconds % 86400
    let hours := rem / 3600
    let rem2 := rem % 3600
    let minutes := rem2 / 60
    let seconds := rem2 % 60
    let parts : List String :=
      (if days ≠ 0 then [plural days "day"] else []) ++
      (if hours ≠ 0 then [plural hours "hour"] else []) ++
      (if minutes ≠ 0 then [plural minutes "minute"] else [])
    let parts := if parts = [] then [plural seconds "second"] else parts
    (String.intercalate " • " parts, days, false)

/-- Source `build_milestone_text(event_name, days_left)`. -/
def build_milestone_text (event_name : String) (days_left : Int) : String :=
  if days_left ≤ 0 then "🎉 **" ++ event_name ++ "** is **today**! 🎉"
  else if days_left = 1 then "✨ **" ++ event_name ++ "** is **tomorrow**! ✨"
  else "💌 **" ++ event_name ++ "** is **" ++ toString days_left ++ " day" ++
    (if days_left ≠ 1 then "s" else "") ++ "** away!"

/-- One event’s body of the milestone loop in `update_countdowns` (the
`for ev in guild_state.get("events", [])` loop): compute the time left,
skip passed (or negative-days) and silenced events, and when `days_left`
is an unannounced milestone decide to notify, appending `days_left` to
`announced_milestones`.  Returns the updated event and the emitted
day-offset, if any.  (Delivery is handled by `runMilestones` below.) -/
def milestoneStep (now : Int) (ev : Event) : Event × Option Int :=
  let r := compute_time_left ev.timestamp now
  let days_left := r.2.1
  let passed := r.2.2
  if passed || days_left < 0 then (ev, none)
  else if ev.silencedD then (ev, none)
  else if days_left ∈ ev.milestonesD ∧ days_left ∉ ev.announcedD then
    ({ ev with announced_milestones := some (ev.announcedD ++ [days_left]) },
      some days_left)
  else (ev, none)

/-- The milestone loop of `update_countdowns` over one guild’s event list,
with the outcome of each `await channel.send(text)` given by `ok` (`ok k`
is whether the k-th send attempt of this pass succeeds).  The send is not
wrapped in a try/except in the source, so a failed send raises out of the
loop: the `announced.append(days_left)` / `save_state()` lines after it do
not run and the remaining events of the pass are not processed.  Returns
the updated event list, the day-offsets of the notifications that were
sent and recorded, and whether the pass was aborted by a failed send. -/
def runMilestones (now : Int) (ok : Nat → Bool) :
    Nat → List Event → List Event × List Int × Bool
  | _, [] => ([], [], false)
  | k, ev :: rest =>
    match milestoneStep now ev with
    | (ev2, some d) =>
      if ok k then
        let r := runMilestones now ok (k + 1) rest
        (ev2 :: r.1, d :: r.2.1, r.2.2)
      else (ev :: rest, [], true)
    | (ev2, none) =>
      let r := runMilestones now ok k rest
      (ev2 :: r.1, r.2.1, r.2.2)

/-- Repeated sweeps over a single event: run the milestone check of
`update_countdowns` once for each reference time in `nows` (sends all
succeeding), collecting the emitted day-offsets in order. -/
def simulate (ev : Event) : List Int → Event × List Int
  | [] => (ev, [])
  | n :: ns =>
    let s := milestoneStep n ev
    let r := simulate s.1 ns
    (r.1, match s.2 with | some d => d :: r.2 | none => r.2)

/-! ### Persistence: `load_state` and the module-load re-sort -/

/-- The parsed persisted snapshot, before `setdefault`: either top-level
key may be absent from the JSON document. -/
structure RawState where
  guilds : Option (List (String × GuildState)) := none
  user_links : Option (List (String × Int)) := none
deriving Repr, DecidableEq, Inhabited

/-- The in-memory state after `load_state` has run. -/
structure StateData where
  guilds : List (String × GuildState)
  user_links : List (String × Int)
deriving Repr, DecidableEq, Inhabited

/-- Source `load_state()`: `file = none` models a missing data file or malformed
JSON (both degrade to `{}`), `file = some r` a successfully parsed
document; then `data.setdefault("guilds", {})` and
`data.setdefault("user_links", {})`. -/
def load_state (file : Option RawState) : StateData :=
  let data := file.getD {}
  { guilds := data.guilds.getD [], user_links := data.user_links.getD [] }

/-- The module-load lines `state = load_state()` followed by
`sort_events(g_state)` for every guild (and a `save_state()`). -/
def startupLoad (file : Option RawState) : StateData :=
  let st := load_state file
  { st with
    guilds := st.guilds.map fun g =>
      (g.1, { g.2 with events := sort_events g.2.events }) }

/-! ### Milestone-list parsing (`_parse_milestones`) -/

/-- Whitespace characters removed by Python’s `str.strip()` (the ASCII
ones; the commands feed it ASCII option strings). -/
def pyIsSpace (c : Char) : Bool :=
  c = ' ' ∨ c = '\t' ∨ c = '\n' ∨ c = '\r'

/-- Python `str.strip()` on the character list of a string. -/
def pyStrip (s : List Char) : List Char :=
  ((s.dropWhile pyIsSpace).reverse.dropWhile pyIsSpace).reverse

/-- Python `str.split(",")` on the character list of a string: split at
every comma, keeping empty chunks. -/
def pySplitComma (s : List Char) : List (List Char) :=
  match s with
  | [] => [[]]
  | c :: rest =>
    let r := pySplitComma rest
    if c = ',' then [] :: r
    else match r with
      | [] => [[c]]
      | chunk :: more => (c :: chunk) :: more

/-- Value of a nonempty list of decimal digits. -/
def digitsVal (cs : List Char) : Option Nat :=
  if cs ≠ [] ∧ cs.all Char.isDigit then
    some (cs.foldl (fun a c => a * 10 + (c.toNat - 48)) 0)
  else none

/-- Python `int(p)` on an already-stripped token: an optional sign
followed by decimal digits (the ASCII decimal literals the command
accepts; other tokens raise, i.e. `none`). -/
def parseIntPy (s : List Char) : Option Int :=
  match s with
  | '+' :: rest => (digitsVal rest).map Int.ofNat
  | '-' :: rest => (digitsVal rest).map (fun n => -(n : Int))
  | cs => (digitsVal cs).map Int.ofNat

/-- The de-dupe loop of `_parse_milestones`: `out`/`seen` accumulation,
keeping the first occurrence of each value in order. -/
def dedupeKeepFirst (ms : List Int) : List Int :=
  (ms.foldl
    (fun (acc : List Int × List Int) m =>
      if m ∈ acc.2 then acc else (acc.1 ++ [m], m :: acc.2))
    ([], [])).1

/-- The stripped, non-empty comma-separated parts of the raw option
string: `[p.strip() for p in raw.split(",") if p.strip() != ""]`. -/
def milestoneParts (raw : String) : List (List Char) :=
  ((pySplitComma raw.data).map pyStrip).filter (fun p => p ≠ [])

/-- The `ms = [int(p) for p in parts]` conversion (inside `try`): `none`
when any token fails to parse. -/
def parsedInts (raw : String) : Option (List Int) :=
  (milestoneParts raw).mapM parseIntPy

/-- Source `_parse_milestones(raw)`: split/strip/convert, reject an empty list or
any negative entry, then de-dupe preserving first-occurrence order. -/
def _parse_milestones (raw : String) : Option (List Int) :=
  match parsedInts raw with
  | none => none
  | some ms =>
    if ms = [] then none
    else if ms.any (fun m => m < 0) then none
    else some (dedupeKeepFirst ms)

/-! ### Index-addressed command handlers

Each handler body (after the external permission checks) re-sorts the
guild’s events in place, resolves its 1-based `index` argument in the
sorted list, and only then mutates and saves.  The returned `GuildState`
is the in-memory guild dictionary after the call; on every error path the
source returns before any event is touched or saved, so the returned state
carries the re-sorted but otherwise unchanged event list. -/

/-- The out-of-range rejection message `f"Index must be between 1 and
{len(events)}."`. -/
def indexMsg (n : Nat) : String :=
  "Index must be between 1 and " ++ toString n ++ "."

/-- Source `removeevent(index)`: bounds-check against the freshly sorted list,
then `events.pop(index - 1)`.  The removed event is returned on success. -/
def removeevent (gs : GuildState) (index : Int) :
    GuildState × Except String Event :=
  let evs := sort_events gs.events
  let gs2 := { gs with events := evs }
  if evs = [] then (gs2, .error "There are no events to remove.")
  else if index < 1 ∨ index > evs.length then (gs2, .error (indexMsg evs.length))
  else
    let i := (index - 1).toNat
    ({ gs2 with events := evs.eraseIdx i }, .ok (evs.getD i default))

/-- Source `eventinfo(index)`: bounds-check against the freshly sorted list and
return the selected event (read-only). -/
def eventinfo (gs : GuildState) (index : Int) :
    GuildState × Except String Event :=
  let evs := sort_events gs.events
  let gs2 := { gs with events := evs }
  if evs = [] then (gs2, .error "There are no events yet.")
  else if index < 1 ∨ index > evs.length then (gs2, .error (indexMsg evs.length))
  else (gs2, .ok (evs.getD ((index - 1).toNat) default))

/-- Source `editevent(index, name, date, time)`.  `name = some s` is a provided
name option (a Python empty string is falsy, so `name or ev["name"]` keeps
the old name); `newDT` models the date/time options together with
`strptime`: `none` = neither provided (keep the old timestamp),
`some none` = provided but unparseable (`ValueError`), `some (some t)` =
provided and parsing to epoch second `t` in the guild’s timezone.  When
the resulting timestamp differs from the old one, `announced_milestones`
is cleared. -/
def editevent (gs : GuildState) (index : Int) (name : Option String)
    (newDT : Option (Option Int)) : GuildState × Except String Unit :=
  let evs := sort_events gs.events
  let gs2 := { gs with events := evs }
  if evs = [] then (gs2, .error "There are no events to edit.")
  else if index < 1 ∨ index > evs.length then (gs2, .error (indexMsg evs.length))
  else
    let i := (index - 1).toNat
    let ev := evs.getD i default
    let old_ts := ev.timestamp
    let new_name :=
      String.mk (pyStrip (match name with
        | some s => if s = "" then ev.name else s
        | none => ev.name).data)
    match newDT with
    | some none =>
      (gs2, .error "Couldn’t understand the new date/time. Use MM/DD/YYYY and 24-hour HH:MM.")
    | _ =>
      let new_ts := match newDT with | some (some t) => t | _ => old_ts
      let ev2 := { ev with
        name := new_name
        timestamp := new_ts
        announced_milestones :=
          if old_ts ≠ new_ts then some [] else ev.announced_milestones }
      ({ gs2 with events := evs.set i ev2 }, .ok ())

/-- Source `setmilestones(index, milestones)`: bounds-check, parse the option
string, set the event’s milestone list and prune `announced_milestones`
to the entries contained in the new set. -/
def setmilestones (gs : GuildState) (index : Int) (milestones : String) :
    GuildState × Except String (List Int) :=
  let evs := sort_events gs.events
  let gs2 := { gs with events := evs }
  if evs = [] then (gs2, .error "There are no events to update.")
  else if index < 1 ∨ index > evs.length then (gs2, .error (indexMsg evs.length))
  else
    match _parse_milestones milestones with
    | none =>
      (gs2, .error "I couldn’t parse that. Use a comma-separated list of non-negative integers, e.g. 90,60,30,7,1,0.")
    | some ms =>
      let i := (index - 1).toNat
      let ev := evs.getD i default
      let ev2 := { ev with
        milestones := some ms
        announced_milestones := some ((ev.announcedD).filter (fun m => m ∈ ms)) }
      ({ gs2 with events := evs.set i ev2 }, .ok ms)

/-- Source `resetmilestones(index)`: bounds-check, then restore
`DEFAULT_MILESTONES` and clear `announced_milestones`. -/
def resetmilestones (gs : GuildState) (index : Int) :
    GuildState × Except String Unit :=
  let evs := sort_events gs.events
  let gs2 := { gs with events := evs }
  if evs = [] then (gs2, .error "There are no events to update.")
  else if index < 1 ∨ index > evs.length then (gs2, .error (indexMsg evs.length))
  else
    let i := (index - 1).toNat
    let ev := evs.getD i default
    let ev2 := { ev with
      milestones := some DEFAULT_MILESTONES
      announced_milestones := some [] }
    ({ gs2 with events := evs.set i ev2 }, .ok ())

/-- The `silence(index, on_off)` toggle: bounds-check, then set the
event’s `silenced` flag. -/
def silenceEvent (gs : GuildState) (index : Int) (on_off : Bool) :
    GuildState × Except String Unit :=
  let evs := sort_events gs.events
  let gs2 := { gs with events := evs }
  if evs = [] then (gs2, .error "There are no events to update.")
  else if index < 1 ∨ index > evs.length then (gs2, .error (indexMsg evs.length))
  else
    let i := (index - 1).toNat
    let ev := evs.getD i default
    ({ gs2 with events := evs.set i { ev with silenced := some on_off } }, .ok ())

/-- Source `testreminder(index, days_left)`: bounds-check, reject a negative
`days_left`, require a configured events channel, and return the test
message text.  The guild state is never mutated. -/
def testreminder (gs : GuildState) (index : Int) (days_left : Int) :
    Except String String :=
  let evs := sort_events gs.events
  if evs = [] then .error "There are no events to test."
  else if index < 1 ∨ index > evs.length then .error (indexMsg evs.length)
  else if days_left < 0 then .error "days_left must be 0 or greater."
  else
    match gs.event_channel_id with
    | none => .error "No events channel set yet. Run /seteventchannel in your events channel."
    | some _ => .ok (build_milestone_text (evs.getD ((index - 1).toNat) default).name days_left)

/-- Source `addevent` effect on the event list: append the new record, then
`sort_events`. -/
def addEventSorted (l : List Event) (ev : Event) : List Event :=
  sort_events (l ++ [ev])

/-- Inserting a sequence of events one by one through `addevent`. -/
def insertAll (l : List Event) : List Event :=
  l.foldl addEventSorted []

/-! ### Repeat reminders (spec-modelled) -/

/-- Modelled from the spec: the repeat-reminder event fields of §3
(`repeatEveryDays`, `repeatAnchorDate`, `announcedRepeatDates`) are absent
from `src/chromie.py`; dates are modelled as day numbers.  `passed` and
`silenced` stand for the sweep’s per-event guards of §4.3. -/
structure EventR where
  repeatEveryDays : Option Int := none
  repeatAnchorDate : Option Int := none
  announcedRepeatDates : List Int := []
  passed : Bool := false
  silenced : Bool := false
deriving Repr, DecidableEq, Inhabited

/-- Modelled from the spec: keep the most recent ≤ 180 entries of the
announced-repeat-date history (§3, §4.3b). -/
def truncate180 (l : List Int) : List Int :=
  l.drop (l.length - 180)

/-- Modelled from the spec (§4.3 step b): for a non-passed, non-silenced
event with `repeatEveryDays` set, let `daysSinceAnchor = today −
repeatAnchorDate`; if `daysSinceAnchor > 0`, it is a multiple of
`repeatEveryDays`, today is not in `announcedRepeatDates`, and no
milestone was emitted for this event in the same pass, emit a
repeat-reminder and record today’s date, truncating the history to the
most recent 180 entries. -/
def repeatCheck (today : Int) (milestoneEmitted : Bool) (ev : EventR) :
    EventR × Bool :=
  if ev.passed ∨ ev.silenced then (ev, false)
  else
    match ev.repeatEveryDays, ev.repeatAnchorDate with
    | some n, some anchor =>
      let daysSinceAnchor := today - anchor
      if daysSinceAnchor > 0 ∧ daysSinceAnchor % n = 0 ∧
          today ∉ ev.announcedRepeatDates ∧ milestoneEmitted = false then
        ({ ev with
            announcedRepeatDates :=
              truncate180 (ev.announcedRepeatDates ++ [today]) }, true)
      else (ev, false)
    | _, _ => (ev, false)

/-! ### Statement helpers and concrete fixtures -/

/-- The sort order of the event list as a proposition: non-decreasing by
instant. -/
abbrev tsLE (a b : Event) : Prop := a.timestamp ≤ b.timestamp

/-- The indexing contract’s validity range: a 1-based position into a list
of length `n`. -/
abbrev inRange (index : Int) (n : Nat) : Prop := 1 ≤ index ∧ index ≤ (n : Int)

/-- Whether a command outcome is a rejection. -/
def isErr {α : Type} : Except String α → Bool
  | .error _ => true
  | .ok _ => false

/-- Accumulator-free form of the de-dupe loop (the `seen` set of the
source always holds exactly the members of `out`, so testing `out` is
equivalent); used to reason about `dedupeKeepFirst`. -/
def dedupeSimple (l : List Int) : List Int :=
  l.foldl (fun out m => if m ∈ out then out else out ++ [m]) []

/-- The spec’s rendering rule for the remaining-time text, stated from the
spec’s words (§4.1) for comparison with `compute_time_left`: integer
days/hours/minutes/seconds of the positive difference, only the non-zero
day/hour/minute components most-significant-first, seconds only when all
larger units are zero. -/
def specComponents (total : Int) : List String :=
  let d := total / 86400
  let h := total % 86400 / 3600
  let m := total % 86400 % 3600 / 60
  let s := total % 86400 % 3600 % 60
  let big :=
    (if d ≠ 0 then [plural d "day"] else []) ++
    (if h ≠ 0 then [plural h "hour"] else []) ++
    (if m ≠ 0 then [plural m "minute"] else [])
  if big = [] then [plural s "second"] else big

/-- Fixture for the milestone dedup scenario: milestones `{7,1,0}`,
nothing announced yet. -/
def exEvent : Event :=
  { name := "retreat", timestamp := 1000000,
    milestones := some [7, 1, 0], announced_milestones := some [] }

/-- Reference times producing sweeps that observe
`days_left = 7,7,6,1,0,0` for `exEvent` (all before the instant). -/
def exNows : List Int :=
  [1000000 - 7 * 86400 - 10, 1000000 - 7 * 86400 - 5,
   1000000 - 6 * 86400 - 10, 1000000 - 86400 - 10,
   1000000 - 10, 1000000 - 5]

/-- Fixture: a due event (at `now = 5` it has `days_left = 1`, an
unannounced milestone). -/
def cexEv1 : Event :=
  { name := "e1", timestamp := 86405,
    milestones := some [1], announced_milestones := some [] }

/-- Fixture: a second due event behind `cexEv1` in the same pass. -/
def cexEv2 : Event :=
  { name := "e2", timestamp := 86406,
    milestones := some [1], announced_milestones := some [] }

/-- Fixture for the repeat cadence: `repeatEveryDays = 7` anchored at
day 0, fresh history. -/
def repeatFixture : EventR :=
  { repeatEveryDays := some 7, repeatAnchorDate := some 0 }

/-- Fixture: a stored event record carrying only the always-present keys
(an older-schema snapshot entry). -/
def rawEv : Event := { name := "e", timestamp := 10 }

/-- Fixture: a parsed snapshot holding one guild with the older-schema
event. -/
def rawC5 : RawState :=
  { guilds := some [("1", { events := [rawEv] })], user_links := some [] }

/-- Fixtures for the sort invariant: `w1` and `w3` share an instant, `w2`
is earlier. -/
def w1 : Event := { name := "a", timestamp := 5 }

/-- Second sort fixture (earliest instant). -/
def w2 : Event := { name := "b", timestamp := 3 }

/-- Third sort fixture (tied with `w1`). -/
def w3 : Event := { name := "c", timestamp := 5 }

/-- Fixture event for the command-handler witnesses (one milestone
already announced). -/
def wEv1 : Event :=
  { name := "alpha", timestamp := 100,
    milestones := some [7, 1, 0], announced_milestones := some [7] }

/-- Second fixture event for the command-handler witnesses. -/
def wEv2 : Event :=
  { name := "beta", timestamp := 200,
    milestones := some [30, 7], announced_milestones := some [30, 7] }

/-- Fixture guild whose (already sorted) list holds `wEv1, wEv2` and whose
events channel is configured. -/
def wGS : GuildState :=
  { event_channel_id := some 5, events := [wEv1, wEv2] }

/-! ## Theorems -/

/-- Helper: a non-passed result has a non-negative `days_left`. -/
lemma compute_days_nonneg (ts now : Int)
    (h : (compute_time_left ts now).2.2 = false) :
    0 ≤ (compute_time_left ts now).2.1 := by
  simp only [compute_time_left] at h ⊢
  split at h
  · simp at h
  · next hc =>
    split
    · next hc2 => exact absurd hc2 hc
    · show 0 ≤ (ts - now) / 86400
      omega

/-- Helper: full case analysis of the milestone check for one event. -/
lemma milestoneStep_spec (now : Int) (ev : Event) :
    ((milestoneStep now ev).2 = none ∧ (milestoneStep now ev).1 = ev ∧
      ((compute_time_left ev.timestamp now).2.2 = true ∨
       (compute_time_left ev.timestamp now).2.1 < 0 ∨
       ev.silencedD = true ∨
       ¬((compute_time_left ev.timestamp now).2.1 ∈ ev.milestonesD ∧
         (compute_time_left ev.timestamp now).2.1 ∉ ev.announcedD)))
    ∨ (∃ d, milestoneStep now ev =
          ({ ev with announced_milestones := some (ev.announcedD ++ [d]) },
            some d)
        ∧ d = (compute_time_left ev.timestamp now).2.1
        ∧ d ∈ ev.milestonesD ∧ d ∉ ev.announcedD
        ∧ (compute_time_left ev.timestamp now).2.2 = false
        ∧ ev.silencedD = false) := by
  simp only [milestoneStep]
  split
  · next h1 =>
    simp only [Bool.or_eq_true, decide_eq_true_eq] at h1
    refine Or.inl ⟨rfl, rfl, ?_⟩
    rcases h1 with h1 | h1
    · exact Or.inl h1
    · exact Or.inr (Or.inl h1)
  · next h1 =>
    simp only [Bool.or_eq_true, decide_eq_true_eq, not_or] at h1
    split
    · next h2 => exact Or.inl ⟨rfl, rfl, Or.inr (Or.inr (Or.inl h2))⟩
    · next h2 =>
      split
      · next h3 =>
        refine Or.inr ⟨_, rfl, rfl, h3.1, h3.2, ?_, ?_⟩
        · cases hb : (compute_time_left ev.timestamp now).2.2
          · rfl
          · exact absurd hb h1.1
        · cases hb : ev.silencedD
          · rfl
          · exact absurd hb h2
      · next h3 => exact Or.inl ⟨rfl, rfl, Or.inr (Or.inr (Or.inr h3))⟩

/-- Helper: what an emission means. -/
lemma milestoneStep_snd_some {now : Int} {ev : Event} {d : Int}
    (h : (milestoneStep now ev).2 = some d) :
    milestoneStep now ev =
      ({ ev with announced_milestones := some (ev.announcedD ++ [d]) }, some d)
    ∧ d ∈ ev.milestonesD ∧ d ∉ ev.announcedD := by
  rcases milestoneStep_spec now ev with ⟨h1, -, -⟩ | ⟨e, he, -, hm, hna, -, -⟩
  · rw [h] at h1; cases h1
  · have : e = d := by rw [he] at h; simpa using h
    subst this
    exact ⟨he, hm, hna⟩

/-- Helper: the milestone check never removes an announced offset. -/
lemma announcedD_step_mono {now : Int} {ev : Event} {x : Int}
    (h : x ∈ ev.announcedD) : x ∈ (milestoneStep now ev).1.announcedD := by
  rcases milestoneStep_spec now ev with ⟨-, h1, -⟩ | ⟨e, he, -, -, -, -, -⟩
  · rw [h1]; exact h
  · rw [he]
    simp [Event.announcedD]
    exact Or.inl h

/-- Helper: an already-announced offset is never emitted again by any
sequence of sweeps. -/
lemma simulate_not_mem_of_announced :
    ∀ (nows : List Int) (ev : Event) (d : Int),
      d ∈ ev.announcedD → d ∉ (simulate ev nows).2 := by
  intro nows
  induction nows with
  | nil => intro ev d _; simp [simulate]
  | cons n ns ih =>
    intro ev d hd
    rcases h : (milestoneStep n ev).2 with - | e
    · simp only [simulate, h]
      exact ih _ d (announcedD_step_mono hd)
    · have hne : e ≠ d := by
        rcases milestoneStep_snd_some h with ⟨-, -, hna⟩
        intro he; exact hna (he ▸ hd)
      simp only [simulate, h, List.mem_cons, not_or]
      exact ⟨fun hc => hne hc.symm, ih _ d (announcedD_step_mono hd)⟩

/-- Helper: across any sequence of sweeps, each day-offset is emitted at
most once. -/
lemma simulate_count_le_one :
    ∀ (nows : List Int) (ev : Event) (d : Int),
      ((simulate ev nows).2.count d) ≤ 1 := by
  intro nows
  induction nows with
  | nil => intro ev d; simp [simulate]
  | cons n ns ih =>
    intro ev d
    rcases h : (milestoneStep n ev).2 with - | e
    · simp only [simulate, h]
      exact ih _ d
    · by_cases hde : d = e
      · subst hde
        have hmem : d ∈ (milestoneStep n ev).1.announcedD := by
          rcases milestoneStep_snd_some h with ⟨he, -, -⟩
          rw [he]
          simp [Event.announcedD]
        have hnot := simulate_not_mem_of_announced ns _ d hmem
        simp only [simulate, h, List.count_cons]
        rw [List.count_eq_zero.mpr hnot]
        simp
      · simp only [simulate, h, List.count_cons]
        have hbe : (e == d) = false := by
          simp only [beq_eq_false_iff_ne, ne_eq]
          exact fun hc => hde hc.symm
        rw [hbe]
        simpa using ih _ d

/-- C1: in every sweep pass, a milestone notification for day-offset `d`
is emitted for a (non-passed, non-silenced) event exactly when `d` equals
the event’s current `days_left`, `d` is one of its milestones, and `d` is
not yet announced; on emission `d` is appended to `announced_milestones`,
so each day-offset fires at most once ever per event across all sweeps,
and sweeps observing `days_left = 7,7,6,1,0,0` with milestones `{7,1,0}`
yield exactly the three notifications `7, 1, 0`. -/
theorem milestone_at_most_once_spec :
    (∀ (now : Int) (ev : Event) (d : Int),
      (compute_time_left ev.timestamp now).2.2 = false →
      ev.silencedD = false →
      (((milestoneStep now ev).2 = some d) ↔
        (d = (compute_time_left ev.timestamp now).2.1 ∧
         d ∈ ev.milestonesD ∧ d ∉ ev.announcedD))
      ∧ ((milestoneStep now ev).2 = some d →
          (milestoneStep now ev).1.announcedD = ev.announcedD ++ [d]))
    ∧ (∀ (nows : List Int) (ev : Event) (d : Int),
        ((simulate ev nows).2.count d) ≤ 1)
    ∧ (simulate exEvent exNows).2 = [7, 1, 0] := by
  refine ⟨?_, simulate_count_le_one, by decide⟩
  intro now ev d hp hs
  constructor
  · constructor
    · intro h
      rcases milestoneStep_spec now ev with ⟨h1, -, -⟩ | ⟨e, he, hd2, hm, hna, -, -⟩
      · rw [h] at h1; cases h1
      · have hed : e = d := by rw [he] at h; simpa using h
        subst hed
        exact ⟨hd2, hm, hna⟩
    · rintro ⟨hdl, hm, hna⟩
      subst hdl
      rcases milestoneStep_spec now ev with ⟨-, -, hwhy⟩ | ⟨e, he, hd2, -, -, -, -⟩
      · rcases hwhy with h1 | h1 | h1 | h1
        · rw [hp] at h1; cases h1
        · have := compute_days_nonneg ev.timestamp now hp; omega
        · rw [hs] at h1; cases h1
        · exact absurd ⟨hm, hna⟩ h1
      · rw [he, hd2]
  · intro h
    rcases milestoneStep_snd_some h with ⟨he, -, -⟩
    rw [he]
    simp [Event.announcedD]

/-- Witness for `milestone_at_most_once_spec` at a concrete sweep: the
event of the fixture, 10 seconds before its instant, emits the `0`
milestone. -/
theorem milestone_at_most_once_spec_witness :
    (((milestoneStep 999990 exEvent).2 = some 0) ↔
      (0 = (compute_time_left exEvent.timestamp 999990).2.1 ∧
       (0 : Int) ∈ exEvent.milestonesD ∧ (0 : Int) ∉ exEvent.announcedD))
    ∧ ((milestoneStep 999990 exEvent).2 = some 0 →
        (milestoneStep 999990 exEvent).1.announcedD =
          exEvent.announcedD ++ [0]) :=
  milestone_at_most_once_spec.1 999990 exEvent 0 (by decide) (by decide)

/-- Helper: when every send succeeds, the milestone loop processes every
event, records every due offset, and is never aborted. -/
lemma runMilestones_all_ok :
    ∀ (evs : List Event) (now : Int) (ok : Nat → Bool) (k : Nat),
      (∀ j, ok j = true) →
      runMilestones now ok k evs =
        (evs.map (fun e => (milestoneStep now e).1),
         evs.filterMap (fun e => (milestoneStep now e).2), false) := by
  intro evs
  induction evs with
  | nil => intro now ok k hok; simp [runMilestones]
  | cons ev rest ih =>
    intro now ok k hok
    rcases h : milestoneStep now ev with ⟨ev2, d⟩
    cases d with
    | none =>
      simp [runMilestones, h, ih now ok k hok]
    | some d =>
      simp [runMilestones, h, hok k, ih now ok (k + 1) hok]

/-- C2 (amended): the day-offset of a due milestone is recorded only when
the Notifier send succeeds; the unguarded `await channel.send` means a
failed send raises, leaving every event unchanged (the offset is not
appended) and aborting the remaining events of the pass, while an
all-successful pass records every due offset and processes every event. -/
theorem milestone_record_requires_send_success :
    (∀ (now : Int) (ok : Nat → Bool) (k : Nat) (evs : List Event),
        (∀ j, ok j = true) →
        runMilestones now ok k evs =
          (evs.map (fun e => (milestoneStep now e).1),
           evs.filterMap (fun e => (milestoneStep now e).2), false))
    ∧ (∀ (now : Int) (ok : Nat → Bool) (k : Nat) (ev : Event)
        (rest : List Event) (d : Int),
        (milestoneStep now ev).2 = some d → ok k = false →
        runMilestones now ok k (ev :: rest) = (ev :: rest, [], true)) := by
  refine ⟨fun now ok k evs h => runMilestones_all_ok evs now ok k h, ?_⟩
  intro now ok k ev rest d h hok
  rcases hstep : milestoneStep now ev with ⟨ev2, d2⟩
  have : d2 = some d := by rw [hstep] at h; exact h
  subst this
  simp [runMilestones, hstep, hok]

/-- Witness for `milestone_record_requires_send_success`: an
all-successful pass over the two due fixture events records both and is
not aborted. -/
theorem milestone_record_requires_send_success_witness :
    runMilestones 5 (fun _ => true) 0 [cexEv1, cexEv2] =
      ([cexEv1, cexEv2].map (fun e => (milestoneStep 5 e).1),
       [cexEv1, cexEv2].filterMap (fun e => (milestoneStep 5 e).2), false) :=
  milestone_record_requires_send_success.1 5 (fun _ => true) 0
    [cexEv1, cexEv2] (fun _ => rfl)

/-- Counterexample to C2 as stated: at `now = 5` the fixture event
`cexEv1` is due (offset 1 is decided), but with a failing send the
sweep leaves both events exactly as they were — offset 1 is *not*
recorded in `announced_milestones` — and the pass is aborted, blocking
the (also due) second event’s notification. -/
theorem milestone_record_not_delivery_independent_cex :
    (milestoneStep 5 cexEv1).2 = some 1
    ∧ (milestoneStep 5 cexEv2).2 = some 1
    ∧ runMilestones 5 (fun _ => false) 0 [cexEv1, cexEv2] =
        ([cexEv1, cexEv2], [], true)
    ∧ (1 : Int) ∉ cexEv1.announcedD
    ∧ ¬((runMilestones 5 (fun _ => false) 0 [cexEv1, cexEv2]).2.2 = false) := by
  decide

/-- Helper: the repeat check of a non-passed, non-silenced event with the
repeat fields set reduces to its cadence condition. -/
lemma repeatCheck_eq (today : Int) (m : Bool) (ev : EventR) (n anchor : Int)
    (hp : ev.passed = false) (hs : ev.silenced = false)
    (hn : ev.repeatEveryDays = some n) (ha : ev.repeatAnchorDate = some anchor) :
    repeatCheck today m ev =
      if today - anchor > 0 ∧ (today - anchor) % n = 0 ∧
          today ∉ ev.announcedRepeatDates ∧ m = false then
        ({ ev with announcedRepeatDates :=
            truncate180 (ev.announcedRepeatDates ++ [today]) }, true)
      else (ev, false) := by
  simp only [repeatCheck, hn, ha, hp, hs]
  rw [if_neg (by simp)]

set_option maxRecDepth 4000 in
/-- C3 (spec-modelled): for a non-passed, non-silenced event with
`repeatEveryDays` set, the repeat check emits exactly when
`daysSinceAnchor > 0`, `daysSinceAnchor` is a multiple of the interval,
today is not yet in `announcedRepeatDates`, and no milestone was emitted
for this event in the same pass; on emission today’s date is recorded,
truncated to the most recent 180 entries.  An interval-7 event anchored
at day 0 fires exactly on days 7, 14, 21 of the first three weeks. -/
theorem repeat_reminder_cadence_spec :
    (∀ (ev : EventR) (today n anchor : Int) (m : Bool),
        ev.passed = false → ev.silenced = false →
        ev.repeatEveryDays = some n → ev.repeatAnchorDate = some anchor →
        (((repeatCheck today m ev).2 = true) ↔
          (0 < today - anchor ∧ (today - anchor) % n = 0 ∧
           today ∉ ev.announcedRepeatDates ∧ m = false))
        ∧ ((repeatCheck today m ev).2 = true →
            (repeatCheck today m ev).1.announcedRepeatDates =
              truncate180 (ev.announcedRepeatDates ++ [today])))
    ∧ ((List.range 22).filter
        (fun day => (repeatCheck (day : Int) false repeatFixture).2) =
          [7, 14, 21]) := by
  constructor
  · intro ev today n anchor m hp hs hn ha
    rw [repeatCheck_eq today m ev n anchor hp hs hn ha]
    by_cases hc : today - anchor > 0 ∧ (today - anchor) % n = 0 ∧
        today ∉ ev.announcedRepeatDates ∧ m = false
    · rw [if_pos hc]
      exact ⟨⟨fun _ => hc, fun _ => rfl⟩, fun _ => rfl⟩
    · rw [if_neg hc]
      refine ⟨⟨fun hfalse => absurd hfalse (by simp), fun hcond => absurd hcond hc⟩,
        fun hfalse => absurd hfalse (by simp)⟩
  · decide

/-- Witness for `repeat_reminder_cadence_spec`: the interval-7 fixture on
day 7 with no milestone collision. -/
theorem repeat_reminder_cadence_spec_witness :
    (((repeatCheck 7 false repeatFixture).2 = true) ↔
      (0 < (7 : Int) - 0 ∧ ((7 : Int) - 0) % 7 = 0 ∧
       (7 : Int) ∉ repeatFixture.announcedRepeatDates ∧ false = false))
    ∧ ((repeatCheck 7 false repeatFixture).2 = true →
        (repeatCheck 7 false repeatFixture).1.announcedRepeatDates =
          truncate180 (repeatFixture.announcedRepeatDates ++ [7])) :=
  repeat_reminder_cadence_spec.1 repeatFixture 7 7 0 false rfl rfl rfl rfl

/-- C4: `compute_time_left` reports `passed = true` exactly when the
event’s instant is at or before the reference time; in that case
`days_left = 0` with the fixed already-happened message, and in every
other case `passed = false`. -/
theorem passed_iff_instant_le_now (ts now : Int) :
    ((compute_time_left ts now).2.2 = true ↔ ts ≤ now)
    ∧ (ts ≤ now →
        compute_time_left ts now =
          ("The event is happening now or has already started! 💕", 0, true))
    ∧ (now < ts → (compute_time_left ts now).2.2 = false) := by
  refine ⟨?_, ?_, ?_⟩
  · simp only [compute_time_left]
    split
    · next hc =>
      show true = true ↔ ts ≤ now
      exact ⟨fun _ => by omega, fun _ => rfl⟩
    · next hc =>
      show false = true ↔ ts ≤ now
      exact ⟨fun hfalse => absurd hfalse (by simp),
        fun hle => absurd (by omega : ts - now ≤ 0) hc⟩
  · intro hle
    simp only [compute_time_left]
    rw [if_pos (by omega : ts - now ≤ 0)]
  · intro hlt
    simp only [compute_time_left]
    rw [if_neg (by omega : ¬ (ts - now ≤ 0))]

/-- Witness for `passed_iff_instant_le_now`: an instant equal to `now` is
passed with the fixed message; one second later it is not passed. -/
theorem passed_iff_instant_le_now_witness :
    ((compute_time_left 100 100).2.2 = true ↔ (100 : Int) ≤ 100)
    ∧ compute_time_left 100 100 =
        ("The event is happening now or has already started! 💕", 0, true)
    ∧ (compute_time_left 50 49).2.2 = false :=
  ⟨(passed_iff_instant_le_now 100 100).1,
   (passed_iff_instant_le_now 100 100).2.1 (by decide),
   (passed_iff_instant_le_now 50 49).2.2 (by decide)⟩

/-- C9: for a non-passed event, `days_left` is the number of whole 86400
second days of the remaining duration (floor division of the duration,
not a calendar-day difference), and the rendered text is the spec’s rule:
non-zero day/hour/minute components most-significant-first, seconds only
when all larger units are zero.  Concretely, 23h59m away renders days
`0`, and the three samples show component skipping and the seconds
fallback. -/
theorem days_left_duration_rendering (ts now : Int) (h : now < ts) :
    ((compute_time_left ts now).2.1 = (ts - now) / 86400
      ∧ 86400 * (compute_time_left ts now).2.1 ≤ ts - now
      ∧ ts - now < 86400 * ((compute_time_left ts now).2.1 + 1))
    ∧ (compute_time_left ts now).1 =
        String.intercalate " • " (specComponents (ts - now))
    ∧ compute_time_left (23 * 3600 + 59 * 60) 0 =
        ("23 hours • 59 minutes", 0, false)
    ∧ compute_time_left 45 0 = ("45 seconds", 0, false)
    ∧ compute_time_left (2 * 86400 + 5 * 60) 0 =
        ("2 days • 5 minutes", 2, false) := by
  have hne : ¬ (ts - now ≤ 0) := by omega
  refine ⟨⟨?_, ?_, ?_⟩, ?_, by decide, by decide, by decide⟩
  · simp only [compute_time_left]
    rw [if_neg hne]
  · simp only [compute_time_left]
    rw [if_neg hne]
    show 86400 * ((ts - now) / 86400) ≤ ts - now
    omega
  · simp only [compute_time_left]
    rw [if_neg hne]
    show ts - now < 86400 * ((ts - now) / 86400 + 1)
    omega
  · simp only [compute_time_left, specComponents]
    rw [if_neg hne]

/-- Witness for `days_left_duration_rendering`: an event 30 days and one
minute away. -/
theorem days_left_duration_rendering_witness :
    ((compute_time_left (30 * 86400 + 60) 0).2.1 = (30 * 86400 + 60 - 0) / 86400
      ∧ 86400 * (compute_time_left (30 * 86400 + 60) 0).2.1 ≤ 30 * 86400 + 60 - 0
      ∧ (30 * 86400 + 60 - 0 : Int) <
          86400 * ((compute_time_left (30 * 86400 + 60) 0).2.1 + 1))
    ∧ (compute_time_left (30 * 86400 + 60) 0).1 =
        String.intercalate " • " (specComponents (30 * 86400 + 60 - 0))
    ∧ compute_time_left (23 * 3600 + 59 * 60) 0 =
        ("23 hours • 59 minutes", 0, false)
    ∧ compute_time_left 45 0 = ("45 seconds", 0, false)
    ∧ compute_time_left (2 * 86400 + 5 * 60) 0 =
        ("2 days • 5 minutes", 2, false) :=
  days_left_duration_rendering (30 * 86400 + 60) 0 (by decide)

/-- Helper: the sort comparison is transitive. -/
lemma eventLE_trans : ∀ (a b c : Event),
    eventLE a b = true → eventLE b c = true → eventLE a c = true := by
  intro a b c hab hbc
  simp only [eventLE, decide_eq_true_eq] at *
  omega

/-- Helper: the sort comparison is total. -/
lemma eventLE_total : ∀ (a b : Event), (eventLE a b || eventLE b a) = true := by
  intro a b
  simp only [eventLE, Bool.or_eq_true, decide_eq_true_eq]
  omega

/-- Helper: `sort_events` permutes its input. -/
lemma sort_events_perm (l : List Event) : (sort_events l).Perm l :=
  List.mergeSort_perm l eventLE

/-- Helper: `sort_events` sorts by instant. -/
lemma sort_events_sorted (l : List Event) : (sort_events l).Pairwise tsLE := by
  have h := List.sorted_mergeSort eventLE_trans eventLE_total l
  exact h.imp (by intro a b hb; simpa [eventLE] using hb)

/-- Helper: `sort_events` is stable — any instant-sorted sublist of the
input survives as a sublist of the output. -/
lemma sort_events_sublist {c l : List Event} (hc : c.Pairwise tsLE)
    (hs : c.Sublist l) : c.Sublist (sort_events l) := by
  refine List.sublist_mergeSort eventLE_trans eventLE_total ?_ hs
  exact hc.imp (by intro a b hb; simpa [eventLE] using hb)

/-- Helper: sorting an already-sorted list is the identity. -/
lemma sort_events_of_sorted {l : List Event} (h : l.Pairwise tsLE) :
    sort_events l = l :=
  List.mergeSort_of_sorted (h.imp (by intro a b hb; simpa [eventLE] using hb))

/-- Helper: the `insertAll` fold invariant — starting from a sorted
accumulator that stably represents the already-inserted prefix,
inserting the remaining events keeps a sorted, stable permutation. -/
lemma insertAll_go :
    ∀ (l acc pre : List Event),
      acc.Perm pre → acc.Pairwise tsLE →
      (∀ c : List Event, c.Sublist pre → c.Pairwise tsLE → c.Sublist acc) →
      (List.foldl addEventSorted acc l).Perm (pre ++ l)
      ∧ (List.foldl addEventSorted acc l).Pairwise tsLE
      ∧ (∀ c : List Event, c.Sublist (pre ++ l) → c.Pairwise tsLE →
          c.Sublist (List.foldl addEventSorted acc l)) := by
  intro l
  induction l with
  | nil =>
    intro acc pre hperm hsorted hstab
    simp only [List.foldl_nil, List.append_nil]
    exact ⟨hperm, hsorted, hstab⟩
  | cons x l ih =>
    intro acc pre hperm hsorted hstab
    have hperm2 : (addEventSorted acc x).Perm (pre ++ [x]) :=
      (sort_events_perm _).trans (hperm.append (List.Perm.refl [x]))
    have hsorted2 : (addEventSorted acc x).Pairwise tsLE := sort_events_sorted _
    have hstab2 : ∀ c : List Event, c.Sublist (pre ++ [x]) → c.Pairwise tsLE →
        c.Sublist (addEventSorted acc x) := by
      intro c hc hcp
      rw [List.sublist_append_iff] at hc
      obtain ⟨c₁, c₂, rfl, h₁, h₂⟩ := hc
      have hc₁p : c₁.Pairwise tsLE :=
        hcp.sublist (List.sublist_append_left c₁ c₂)
      have hsub : (c₁ ++ c₂).Sublist (acc ++ [x]) :=
        List.Sublist.append (hstab c₁ h₁ hc₁p) h₂
      exact sort_events_sublist hcp hsub
    have hmain := ih (addEventSorted acc x) (pre ++ [x]) hperm2 hsorted2 hstab2
    have hre : (pre ++ [x]) ++ l = pre ++ x :: l := by simp
    rw [hre] at hmain
    simpa only [List.foldl_cons] using hmain

/-- C6: for any sequence of insertions through `addevent`, the event list
read back is a permutation of the inserted events, non-decreasing by
instant, and stable — any two insertions whose instants are in
non-decreasing insertion order (in particular, ties) keep their relative
order; moreover a single `sort_events` (run before every read or
mutation) always yields an instant-sorted permutation. -/
theorem sort_invariant_insertions :
    (∀ l : List Event, (sort_events l).Perm l ∧ (sort_events l).Pairwise tsLE)
    ∧ (∀ inserted : List Event,
        (insertAll inserted).Perm inserted
        ∧ (insertAll inserted).Pairwise tsLE
        ∧ (∀ c : List Event, c.Sublist inserted → c.Pairwise tsLE →
            c.Sublist (insertAll inserted))) := by
  constructor
  · intro l
    exact ⟨sort_events_perm l, sort_events_sorted l⟩
  · intro inserted
    have h := insertAll_go inserted [] [] (List.Perm.refl [])
      List.Pairwise.nil (fun c hc _ => hc)
    simpa only [insertAll, List.nil_append] using h

/-- Witness for `sort_invariant_insertions`: among three concrete
insertions with a tie (`w1` and `w3` share instant 5, inserted in that
order around `w2`), the tied pair keeps its insertion order in the list
read back. -/
theorem sort_invariant_insertions_witness :
    List.Sublist [w1, w3] (insertAll [w1, w2, w3]) :=
  (sort_invariant_insertions.2 [w1, w2, w3]).2.2 [w1, w3]
    (by decide) (by decide)

/-- Helper: an in-range index forces a non-empty sorted list. -/
lemma sorted_ne_nil_of_inRange {gs : GuildState} {i : Int}
    (h : inRange i (sort_events gs.events).length) :
    ¬ (sort_events gs.events = []) := by
  intro he
  rw [he] at h
  unfold inRange at h
  simp at h
  omega

/-- Helper: an in-range index falsifies the rejection condition. -/
lemma not_reject_of_inRange {gs : GuildState} {i : Int}
    (h : inRange i (sort_events gs.events).length) :
    ¬ (i < 1 ∨ i > ((sort_events gs.events).length : Int)) := by
  unfold inRange at h
  omega

/-- Helper: `removeevent` rejects an out-of-range index without touching
the (re-sorted) event list. -/
lemma removeevent_out_of_range (gs : GuildState) (i : Int)
    (h : ¬ inRange i (sort_events gs.events).length) :
    isErr (removeevent gs i).2 = true
    ∧ (removeevent gs i).1.events = sort_events gs.events := by
  simp only [removeevent]
  split
  · exact ⟨rfl, rfl⟩
  · split
    · exact ⟨rfl, rfl⟩
    · next h2 =>
      exact absurd (show inRange i (sort_events gs.events).length by
        unfold inRange; omega) h

/-- Helper: `removeevent` with an in-range index pops position `i - 1` of
the freshly sorted list. -/
lemma removeevent_in_range (gs : GuildState) (i : Int)
    (h : inRange i (sort_events gs.events).length) :
    removeevent gs i =
      ({ gs with events := (sort_events gs.events).eraseIdx ((i - 1).toNat) },
        .ok ((sort_events gs.events).getD ((i - 1).toNat) default)) := by
  simp only [removeevent]
  rw [if_neg (sorted_ne_nil_of_inRange h), if_neg (not_reject_of_inRange h)]

/-- Helper: `eventinfo` rejects an out-of-range index without touching the
(re-sorted) event list. -/
lemma eventinfo_out_of_range (gs : GuildState) (i : Int)
    (h : ¬ inRange i (sort_events gs.events).length) :
    isErr (eventinfo gs i).2 = true
    ∧ (eventinfo gs i).1.events = sort_events gs.events := by
  simp only [eventinfo]
  split
  · exact ⟨rfl, rfl⟩
  · split
    · exact ⟨rfl, rfl⟩
    · next h2 =>
      exact absurd (show inRange i (sort_events gs.events).length by
        unfold inRange; omega) h

/-- Helper: `eventinfo` with an in-range index reads position `i - 1` of
the freshly sorted list. -/
lemma eventinfo_in_range (gs : GuildState) (i : Int)
    (h : inRange i (sort_events gs.events).length) :
    eventinfo gs i =
      ({ gs with events := sort_events gs.events },
        .ok ((sort_events gs.events).getD ((i - 1).toNat) default)) := by
  simp only [eventinfo]
  rw [if_neg (sorted_ne_nil_of_inRange h), if_neg (not_reject_of_inRange h)]

/-- Helper: `editevent` rejects an out-of-range index without touching the
(re-sorted) event list. -/
lemma editevent_out_of_range (gs : GuildState) (i : Int) (name : Option String)
    (newDT : Option (Option Int))
    (h : ¬ inRange i (sort_events gs.events).length) :
    isErr (editevent gs i name newDT).2 = true
    ∧ (editevent gs i name newDT).1.events = sort_events gs.events := by
  simp only [editevent]
  split
  · exact ⟨rfl, rfl⟩
  · split
    · exact ⟨rfl, rfl⟩
    · next h2 =>
      exact absurd (show inRange i (sort_events gs.events).length by
        unfold inRange; omega) h

/-- Helper: a name-only `editevent` with an in-range index updates
position `i - 1` of the freshly sorted list. -/
lemma editevent_in_range_keep (gs : GuildState) (i : Int) (name : Option String)
    (h : inRange i (sort_events gs.events).length) :
    ∃ ev2 : Event,
      editevent gs i name none =
        ({ gs with events := (sort_events gs.events).set ((i - 1).toNat) ev2 },
          .ok ()) := by
  simp only [editevent]
  rw [if_neg (sorted_ne_nil_of_inRange h), if_neg (not_reject_of_inRange h)]
  exact ⟨_, rfl⟩

/-- Helper: `setmilestones` rejects an out-of-range index without touching
the (re-sorted) event list. -/
lemma setmilestones_out_of_range (gs : GuildState) (i : Int) (raw : String)
    (h : ¬ inRange i (sort_events gs.events).length) :
    isErr (setmilestones gs i raw).2 = true
    ∧ (setmilestones gs i raw).1.events = sort_events gs.events := by
  simp only [setmilestones]
  split
  · exact ⟨rfl, rfl⟩
  · split
    · exact ⟨rfl, rfl⟩
    · next h2 =>
      exact absurd (show inRange i (sort_events gs.events).length by
        unfold inRange; omega) h

/-- Helper: `setmilestones` on an unparseable milestone string rejects
without touching the (re-sorted) event list, whatever the index. -/
lemma setmilestones_parse_fail (gs : GuildState) (i : Int) (raw : String)
    (hp : _parse_milestones raw = none) :
    isErr (setmilestones gs i raw).2 = true
    ∧ (setmilestones gs i raw).1.events = sort_events gs.events := by
  simp only [setmilestones]
  split
  · exact ⟨rfl, rfl⟩
  · split
    · exact ⟨rfl, rfl⟩
    · rw [hp]
      exact ⟨rfl, rfl⟩

/-- Helper: `setmilestones` with an in-range index and a well-formed
milestone string rewrites position `i - 1` of the freshly sorted list,
pruning the announced set. -/
lemma setmilestones_ok (gs : GuildState) (i : Int) (raw : String)
    (ms : List Int) (h : inRange i (sort_events gs.events).length)
    (hp : _parse_milestones raw = some ms) :
    setmilestones gs i raw =
      ({ gs with
          events :=
            (sort_events gs.events).set ((i - 1).toNat)
              ({ (sort_events gs.events).getD ((i - 1).toNat) default with
                  milestones := some ms
                  announced_milestones :=
                    some ((((sort_events gs.events).getD ((i - 1).toNat)
                      default).announcedD).filter (fun m => m ∈ ms)) }) },
        .ok ms) := by
  simp only [setmilestones]
  rw [if_neg (sorted_ne_nil_of_inRange h), if_neg (not_reject_of_inRange h), hp]

/-- Helper: `resetmilestones` rejects an out-of-range index without
touching the (re-sorted) event list. -/
lemma resetmilestones_out_of_range (gs : GuildState) (i : Int)
    (h : ¬ inRange i (sort_events gs.events).length) :
    isErr (resetmilestones gs i).2 = true
    ∧ (resetmilestones gs i).1.events = sort_events gs.events := by
  simp only [resetmilestones]
  split
  · exact ⟨rfl, rfl⟩
  · split
    · exact ⟨rfl, rfl⟩
    · next h2 =>
      exact absurd (show inRange i (sort_events gs.events).length by
        unfold inRange; omega) h

/-- Helper: `resetmilestones` with an in-range index restores the default
milestones at position `i - 1` of the freshly sorted list. -/
lemma resetmilestones_in_range (gs : GuildState) (i : Int)
    (h : inRange i (sort_events gs.events).length) :
    resetmilestones gs i =
      ({ gs with
          events :=
            (sort_events gs.events).set ((i - 1).toNat)
              ({ (sort_events gs.events).getD ((i - 1).toNat) default with
                  milestones := some DEFAULT_MILESTONES
                  announced_milestones := some [] }) },
        .ok ()) := by
  simp only [resetmilestones]
  rw [if_neg (sorted_ne_nil_of_inRange h), if_neg (not_reject_of_inRange h)]

/-- Helper: the silence toggle rejects an out-of-range index without
touching the (re-sorted) event list. -/
lemma silenceEvent_out_of_range (gs : GuildState) (i : Int) (b : Bool)
    (h : ¬ inRange i (sort_events gs.events).length) :
    isErr (silenceEvent gs i b).2 = true
    ∧ (silenceEvent gs i b).1.events = sort_events gs.events := by
  simp only [silenceEvent]
  split
  · exact ⟨rfl, rfl⟩
  · split
    · exact ⟨rfl, rfl⟩
    · next h2 =>
      exact absurd (show inRange i (sort_events gs.events).length by
        unfold inRange; omega) h

/-- Helper: the silence toggle with an in-range index flips position
`i - 1` of the freshly sorted list. -/
lemma silenceEvent_in_range (gs : GuildState) (i : Int) (b : Bool)
    (h : inRange i (sort_events gs.events).length) :
    silenceEvent gs i b =
      ({ gs with
          events :=
            (sort_events gs.events).set ((i - 1).toNat)
              ({ (sort_events gs.events).getD ((i - 1).toNat) default with
                  silenced := some b }) },
        .ok ()) := by
  simp only [silenceEvent]
  rw [if_neg (sorted_ne_nil_of_inRange h), if_neg (not_reject_of_inRange h)]

/-- Helper: `testreminder` rejects an out-of-range index (it never mutates
state). -/
lemma testreminder_out_of_range (gs : GuildState) (i : Int) (d : Int)
    (h : ¬ inRange i (sort_events gs.events).length) :
    isErr (testreminder gs i d) = true := by
  simp only [testreminder]
  split
  · rfl
  · split
    · rfl
    · split
      · rfl
      · split
        · rfl
        · next h2 _ _ _ =>
          exact absurd (show inRange i (sort_events gs.events).length by
            unfold inRange; omega) h

/-- Helper: `testreminder` with an in-range index, a non-negative
`days_left` and a configured channel builds the milestone text of
position `i - 1` of the freshly sorted list. -/
lemma testreminder_ok (gs : GuildState) (i : Int) (d : Int) (c : Int)
    (h : inRange i (sort_events gs.events).length) (hd : 0 ≤ d)
    (hc : gs.event_channel_id = some c) :
    testreminder gs i d =
      .ok (build_milestone_text
        ((sort_events gs.events).getD ((i - 1).toNat) default).name d) := by
  simp only [testreminder]
  rw [if_neg (sorted_ne_nil_of_inRange h), if_neg (not_reject_of_inRange h),
    if_neg (by omega : ¬ (d < 0)), hc]

/-- Helper: on a non-empty list, an out-of-range `removeevent` produces
exactly the out-of-range message. -/
lemma removeevent_reject_msg (gs : GuildState) (i : Int)
    (hne : ¬ (sort_events gs.events = []))
    (h : ¬ inRange i (sort_events gs.events).length) :
    (removeevent gs i).2 =
      .error (indexMsg (sort_events gs.events).length) := by
  simp only [removeevent]
  rw [if_neg hne, if_pos (show i < 1 ∨ i > ((sort_events gs.events).length : Int)
    by unfold inRange at h; omega)]

/-- Helper: on a non-empty list, an out-of-range `editevent` produces
exactly the out-of-range message. -/
lemma editevent_reject_msg (gs : GuildState) (i : Int) (name : Option String)
    (newDT : Option (Option Int)) (hne : ¬ (sort_events gs.events = []))
    (h : ¬ inRange i (sort_events gs.events).length) :
    (editevent gs i name newDT).2 =
      .error (indexMsg (sort_events gs.events).length) := by
  simp only [editevent]
  rw [if_neg hne, if_pos (show i < 1 ∨ i > ((sort_events gs.events).length : Int)
    by unfold inRange at h; omega)]

/-- C7: every index-addressed operation (remove, edit, info,
set/reset milestones, silence, test reminder) interprets its index as the
1-based position in the freshly re-sorted event list and rejects any
index outside `[1, len]` with an error while leaving the event list (and
hence the store) unmutated. -/
theorem index_ops_contract :
    (∀ (gs : GuildState) (i : Int),
      ¬ inRange i (sort_events gs.events).length →
      (isErr (removeevent gs i).2 = true
        ∧ (removeevent gs i).1.events = sort_events gs.events)
      ∧ (isErr (eventinfo gs i).2 = true
        ∧ (eventinfo gs i).1.events = sort_events gs.events)
      ∧ (∀ (name : Option String) (newDT : Option (Option Int)),
          isErr (editevent gs i name newDT).2 = true
          ∧ (editevent gs i name newDT).1.events = sort_events gs.events)
      ∧ (∀ raw : String, isErr (setmilestones gs i raw).2 = true
          ∧ (setmilestones gs i raw).1.events = sort_events gs.events)
      ∧ (isErr (resetmilestones gs i).2 = true
        ∧ (resetmilestones gs i).1.events = sort_events gs.events)
      ∧ (∀ b : Bool, isErr (silenceEvent gs i b).2 = true
          ∧ (silenceEvent gs i b).1.events = sort_events gs.events)
      ∧ (∀ d : Int, isErr (testreminder gs i d) = true))
    ∧ (∀ (gs : GuildState) (i : Int),
      ¬ (sort_events gs.events = []) →
      ¬ inRange i (sort_events gs.events).length →
      (removeevent gs i).2 = .error (indexMsg (sort_events gs.events).length)
      ∧ (∀ (name : Option String) (newDT : Option (Option Int)),
          (editevent gs i name newDT).2 =
            .error (indexMsg (sort_events gs.events).length)))
    ∧ (∀ (gs : GuildState) (i : Int),
      inRange i (sort_events gs.events).length →
      removeevent gs i =
        ({ gs with events := (sort_events gs.events).eraseIdx ((i - 1).toNat) },
          .ok ((sort_events gs.events).getD ((i - 1).toNat) default))
      ∧ eventinfo gs i =
          ({ gs with events := sort_events gs.events },
            .ok ((sort_events gs.events).getD ((i - 1).toNat) default))
      ∧ (∀ name : Option String, ∃ ev2 : Event,
          editevent gs i name none =
            ({ gs with events := (sort_events gs.events).set ((i - 1).toNat) ev2 },
              .ok ()))
      ∧ (∀ (raw : String) (ms : List Int), _parse_milestones raw = some ms →
          setmilestones gs i raw =
            ({ gs with
                events :=
                  (sort_events gs.events).set ((i - 1).toNat)
                    ({ (sort_events gs.events).getD ((i - 1).toNat) default with
                        milestones := some ms
                        announced_milestones :=
                          some ((((sort_events gs.events).getD ((i - 1).toNat)
                            default).announcedD).filter (fun m => m ∈ ms)) }) },
              .ok ms))
      ∧ resetmilestones gs i =
          ({ gs with
              events :=
                (sort_events gs.events).set ((i - 1).toNat)
                  ({ (sort_events gs.events).getD ((i - 1).toNat) default with
                      milestones := some DEFAULT_MILESTONES
                      announced_milestones := some [] }) },
            .ok ())
      ∧ (∀ b : Bool, silenceEvent gs i b =
          ({ gs with
              events :=
                (sort_events gs.events).set ((i - 1).toNat)
                  ({ (sort_events gs.events).getD ((i - 1).toNat) default with
                      silenced := some b }) },
            .ok ()))
      ∧ (∀ (d c : Int), 0 ≤ d → gs.event_channel_id = some c →
          testreminder gs i d =
            .ok (build_milestone_text
              ((sort_events gs.events).getD ((i - 1).toNat) default).name d))) := by
  refine ⟨?_, ?_, ?_⟩
  · intro gs i h
    exact ⟨removeevent_out_of_range gs i h,
      eventinfo_out_of_range gs i h,
      fun name newDT => editevent_out_of_range gs i name newDT h,
      fun raw => setmilestones_out_of_range gs i raw h,
      resetmilestones_out_of_range gs i h,
      fun b => silenceEvent_out_of_range gs i b h,
      fun d => testreminder_out_of_range gs i d h⟩
  · intro gs i hne h
    exact ⟨removeevent_reject_msg gs i hne h,
      fun name newDT => editevent_reject_msg gs i name newDT hne h⟩
  · intro gs i h
    exact ⟨removeevent_in_range gs i h,
      eventinfo_in_range gs i h,
      fun name => editevent_in_range_keep gs i name h,
      fun raw ms hp => setmilestones_ok gs i raw ms h hp,
      resetmilestones_in_range gs i h,
      fun b => silenceEvent_in_range gs i b h,
      fun d c hd hc => testreminder_ok gs i d c h hd hc⟩

/-- Helper: the `out`/`seen` fold equals the accumulator-free fold as long
as `seen` holds exactly the members of `out`. -/
lemma dedupe_go_eq :
    ∀ (l out seen : List Int), (∀ x, x ∈ out ↔ x ∈ seen) →
      (l.foldl
        (fun (acc : List Int × List Int) m =>
          if m ∈ acc.2 then acc else (acc.1 ++ [m], m :: acc.2))
        (out, seen)).1
      = l.foldl (fun o m => if m ∈ o then o else o ++ [m]) out := by
  intro l
  induction l with
  | nil => intro out seen _; rfl
  | cons m rest ih =>
    intro out seen hinv
    by_cases hm : m ∈ seen
    · have hm2 : m ∈ out := (hinv m).mpr hm
      simp only [List.foldl_cons, if_pos hm, if_pos hm2]
      exact ih out seen hinv
    · have hm2 : m ∉ out := fun hx => hm ((hinv m).mp hx)
      simp only [List.foldl_cons, if_neg hm, if_neg hm2]
      refine ih (out ++ [m]) (m :: seen) ?_
      intro x
      simp only [List.mem_append, List.mem_singleton, List.mem_cons]
      rw [hinv x]
      tauto

/-- Helper: the source’s de-dupe loop and the accumulator-free fold
agree. -/
lemma dedupeKeepFirst_eq (l : List Int) : dedupeKeepFirst l = dedupeSimple l :=
  dedupe_go_eq l [] [] (by simp)

/-- Helper: the accumulator-free fold, one appended element at a time. -/
lemma dedupeSimple_append (l : List Int) (m : Int) :
    dedupeSimple (l ++ [m]) =
      if m ∈ dedupeSimple l then dedupeSimple l else dedupeSimple l ++ [m] := by
  simp [dedupeSimple, List.foldl_append]

/-- Helper: de-duping preserves membership. -/
lemma mem_dedupeSimple (l : List Int) (x : Int) :
    x ∈ dedupeSimple l ↔ x ∈ l := by
  induction l using List.reverseRecOn with
  | nil => simp [dedupeSimple]
  | append_singleton l m ih =>
    rw [dedupeSimple_append]
    by_cases hm : m ∈ dedupeSimple l
    · rw [if_pos hm]
      constructor
      · intro h; exact List.mem_append_left _ (ih.mp h)
      · intro h
        rcases List.mem_append.mp h with h | h
        · exact ih.mpr h
        · rw [List.mem_singleton] at h; subst h; exact hm
    · rw [if_neg hm]
      simp only [List.mem_append, ih]

/-- Helper: the de-duped list has no duplicates. -/
lemma nodup_dedupeSimple (l : List Int) : (dedupeSimple l).Nodup := by
  induction l using List.reverseRecOn with
  | nil => simp [dedupeSimple]
  | append_singleton l m ih =>
    rw [dedupeSimple_append]
    by_cases hm : m ∈ dedupeSimple l
    · rw [if_pos hm]; exact ih
    · rw [if_neg hm]
      rw [List.nodup_append]
      exact ⟨ih, List.nodup_singleton m,
        fun a ha hb => by rw [List.mem_singleton] at hb; subst hb; exact hm ha⟩

/-- Helper: the de-duped list is a sublist (relative order preserved). -/
lemma dedupeSimple_sublist (l : List Int) : (dedupeSimple l).Sublist l := by
  induction l using List.reverseRecOn with
  | nil => simp [dedupeSimple]
  | append_singleton l m ih =>
    rw [dedupeSimple_append]
    by_cases hm : m ∈ dedupeSimple l
    · rw [if_pos hm]
      exact ih.trans (List.sublist_append_left l [m])
    · rw [if_neg hm]
      exact List.Sublist.append ih (List.Sublist.refl [m])

/-- Helper: the de-duped list is ordered by first occurrence in the
input. -/
lemma pairwise_indexOf_dedupeSimple (l : List Int) :
    (dedupeSimple l).Pairwise (fun a b => l.indexOf a < l.indexOf b) := by
  induction l using List.reverseRecOn with
  | nil => simp [dedupeSimple]
  | append_singleton l m ih =>
    have transfer : (dedupeSimple l).Pairwise
        (fun a b => (l ++ [m]).indexOf a < (l ++ [m]).indexOf b) := by
      refine ih.imp_of_mem ?_
      intro a b ha hb hab
      have ha2 : a ∈ l := (mem_dedupeSimple l a).mp ha
      have hb2 : b ∈ l := (mem_dedupeSimple l b).mp hb
      rw [List.indexOf_append_of_mem ha2, List.indexOf_append_of_mem hb2]
      exact hab
    rw [dedupeSimple_append]
    by_cases hm : m ∈ dedupeSimple l
    · rw [if_pos hm]
      exact transfer
    · rw [if_neg hm]
      rw [List.pairwise_append]
      refine ⟨transfer, List.pairwise_singleton _ _, ?_⟩
      intro a ha b hb
      rw [List.mem_singleton] at hb
      rw [hb]
      have ha2 : a ∈ l := (mem_dedupeSimple l a).mp ha
      have hm2 : m ∉ l := fun hx => hm ((mem_dedupeSimple l m).mpr hx)
      rw [List.indexOf_append_of_mem ha2, List.indexOf_append_of_not_mem hm2]
      have := List.indexOf_lt_length.mpr ha2
      omega

/-- Helper: de-duping a non-empty list is non-empty. -/
lemma dedupeSimple_ne_nil {l : List Int} (h : l ≠ []) :
    dedupeSimple l ≠ [] := by
  obtain ⟨x, hx⟩ := List.exists_mem_of_ne_nil l h
  exact List.ne_nil_of_mem ((mem_dedupeSimple l x).mpr hx)

/-- C8: `_parse_milestones` accepts exactly the non-empty all-non-negative
integer lists (a failed token conversion, an empty list, or a negative
entry yield `none`), returning the parsed values de-duplicated in
first-occurrence order; `setmilestones` on a malformed string reports a
validation error and leaves the (re-sorted) event list unmutated, and on
success prunes `announced_milestones` to the entries of the new set. -/
theorem setmilestones_validation_spec :
    (∀ raw : String, parsedInts raw = none → _parse_milestones raw = none)
    ∧ (∀ (raw : String) (l : List Int), parsedInts raw = some l →
        ((_parse_milestones raw = none) ↔ (l = [] ∨ ∃ m ∈ l, m < 0))
        ∧ (∀ ms : List Int, _parse_milestones raw = some ms →
            ms.Nodup ∧ ms.Sublist l ∧ (∀ x, x ∈ ms ↔ x ∈ l)
            ∧ (∀ m ∈ ms, 0 ≤ m) ∧ ms ≠ []
            ∧ ms.Pairwise (fun a b => l.indexOf a < l.indexOf b)))
    ∧ (∀ (gs : GuildState) (i : Int) (raw : String),
        _parse_milestones raw = none →
        isErr (setmilestones gs i raw).2 = true
        ∧ (setmilestones gs i raw).1.events = sort_events gs.events)
    ∧ (∀ (gs : GuildState) (i : Int) (raw : String) (ms : List Int),
        inRange i (sort_events gs.events).length →
        _parse_milestones raw = some ms →
        (setmilestones gs i raw).2 = .ok ms
        ∧ ∀ x ∈ (((sort_events gs.events).getD ((i - 1).toNat)
            default).announcedD).filter (fun m => m ∈ ms), x ∈ ms)
    ∧ (_parse_milestones "90, 60,30,30,7,1,0" = some [90, 60, 30, 7, 1, 0]
       ∧ _parse_milestones "" = none
       ∧ _parse_milestones "5,-1" = none
       ∧ _parse_milestones "5,x" = none
       ∧ _parse_milestones "+3,007" = some [3, 7]) := by
  refine ⟨?_, ?_, ?_, ?_, by decide, by decide, by decide, by decide, by decide⟩
  · intro raw h
    simp [_parse_milestones, h]
  · intro raw l h
    constructor
    · simp only [_parse_milestones, h]
      constructor
      · intro hnone
        by_cases hl : l = []
        · exact Or.inl hl
        · rw [if_neg hl] at hnone
          by_cases hneg : l.any (fun m => m < 0)
          · right
            simpa using hneg
          · rw [if_neg hneg] at hnone
            cases hnone
      · intro hcase
        by_cases hl : l = []
        · rw [if_pos hl]
        · rw [if_neg hl]
          have hany : l.any (fun m => m < 0) = true := by
            rcases hcase with hl2 | ⟨m, hm, hlt⟩
            · exact absurd hl2 hl
            · simp only [List.any_eq_true, decide_eq_true_eq]
              exact ⟨m, hm, hlt⟩
          rw [if_pos hany]
    · intro ms hms
      simp only [_parse_milestones, h] at hms
      by_cases hl : l = []
      · rw [if_pos hl] at hms; cases hms
      · rw [if_neg hl] at hms
        by_cases hneg : l.any (fun m => m < 0)
        · rw [if_pos hneg] at hms; cases hms
        · rw [if_neg hneg] at hms
          have hms2 : ms = dedupeSimple l := by
            have h2 := Option.some.inj hms
            rw [dedupeKeepFirst_eq] at h2
            exact h2.symm
          subst hms2
          refine ⟨nodup_dedupeSimple l, dedupeSimple_sublist l,
            mem_dedupeSimple l, ?_, dedupeSimple_ne_nil hl,
            pairwise_indexOf_dedupeSimple l⟩
          intro m hm
          have hm2 : m ∈ l := (mem_dedupeSimple l m).mp hm
          by_contra hlt
          apply hneg
          simp only [List.any_eq_true, decide_eq_true_eq]
          exact ⟨m, hm2, by omega⟩
  · intro gs i raw hp
    exact setmilestones_parse_fail gs i raw hp
  · intro gs i raw ms h hp
    rw [setmilestones_ok gs i raw ms h hp]
    refine ⟨rfl, fun x hx => ?_⟩
    have := (List.mem_filter.mp hx).2
    simpa using this

/-- Witness for `index_ops_contract` on the fixture guild: index 5 is
rejected leaving the sorted list untouched, and index 1 removes the first
sorted event. -/
theorem index_ops_contract_witness :
    (isErr (removeevent wGS 5).2 = true
      ∧ (removeevent wGS 5).1.events = sort_events wGS.events)
    ∧ removeevent wGS 1 =
        ({ wGS with
            events :=
              (sort_events wGS.events).eraseIdx (((1 : Int) - 1).toNat) },
          .ok ((sort_events wGS.events).getD (((1 : Int) - 1).toNat) default)) := by
  have hsort : sort_events wGS.events = wGS.events :=
    sort_events_of_sorted (by decide)
  exact ⟨(index_ops_contract.1 wGS 5 (by rw [hsort]; decide)).1,
    (index_ops_contract.2.2 wGS 1 (by rw [hsort]; decide)).1⟩

/-- Witness for `setmilestones_validation_spec` on the fixture guild:
setting event 1’s milestones to the singleton string succeeds with the
parsed singleton list. -/
theorem setmilestones_validation_spec_witness :
    (setmilestones wGS 1 "7").2 = .ok [7]
    ∧ ∀ x ∈ (((sort_events wGS.events).getD (((1 : Int) - 1).toNat)
        default).announcedD).filter (fun m => m ∈ ([7] : List Int)), x ∈ ([7] : List Int) := by
  have hsort : sort_events wGS.events = wGS.events :=
    sort_events_of_sorted (by decide)
  exact setmilestones_validation_spec.2.2.2.1 wGS 1 "7" [7]
    (by rw [hsort]; decide) (by decide)

/-- C10: a successful `editevent` updates exactly the addressed position
of the freshly sorted list; the event’s milestone list is never modified,
`announced_milestones` is left unchanged when the resulting timestamp
equals the previous one (e.g. a name-only edit) and is reset to empty
when it differs. -/
theorem editevent_preserves_or_resets_announced :
    ∀ (gs : GuildState) (index : Int) (name : Option String)
      (newDT : Option (Option Int)) (gs2 : GuildState) (u : Unit),
      editevent gs index name newDT = (gs2, .ok u) →
      ∃ ev2 : Event,
        gs2.events = (sort_events gs.events).set ((index - 1).toNat) ev2
        ∧ ev2.milestones =
            ((sort_events gs.events).getD ((index - 1).toNat) default).milestones
        ∧ (ev2.timestamp =
              ((sort_events gs.events).getD ((index - 1).toNat)
                default).timestamp →
            ev2.announced_milestones =
              ((sort_events gs.events).getD ((index - 1).toNat)
                default).announced_milestones)
        ∧ (ev2.timestamp ≠
              ((sort_events gs.events).getD ((index - 1).toNat)
                default).timestamp →
            ev2.announced_milestones = some []) := by
  intro gs index name newDT gs2 u h
  rcases newDT with - | nd
  · simp only [editevent] at h
    split at h
    · simp [Prod.ext_iff] at h
    · split at h
      · simp [Prod.ext_iff] at h
      · rw [Prod.mk.injEq] at h
        obtain ⟨h1, -⟩ := h
        subst h1
        refine ⟨_, rfl, rfl, fun _ => ?_, fun hne => ?_⟩
        · show (if ((sort_events gs.events).getD ((index - 1).toNat)
              default).timestamp ≠ ((sort_events gs.events).getD
              ((index - 1).toNat) default).timestamp then some []
            else ((sort_events gs.events).getD ((index - 1).toNat)
              default).announced_milestones) =
            ((sort_events gs.events).getD ((index - 1).toNat)
              default).announced_milestones
          rw [if_neg (fun hc => hc rfl)]
        · exact absurd rfl hne
  · rcases nd with - | t
    · simp only [editevent] at h
      split at h
      · simp [Prod.ext_iff] at h
      · split at h
        · simp [Prod.ext_iff] at h
        · simp [Prod.ext_iff] at h
    · simp only [editevent] at h
      split at h
      · simp [Prod.ext_iff] at h
      · split at h
        · simp [Prod.ext_iff] at h
        · rw [Prod.mk.injEq] at h
          obtain ⟨h1, -⟩ := h
          subst h1
          refine ⟨_, rfl, rfl, fun heq => ?_, fun hne => ?_⟩
          · have heq2 : t = ((sort_events gs.events).getD
                ((index - 1).toNat) default).timestamp := heq
            show (if ((sort_events gs.events).getD ((index - 1).toNat)
                default).timestamp ≠ t then some []
              else ((sort_events gs.events).getD ((index - 1).toNat)
                default).announced_milestones) =
              ((sort_events gs.events).getD ((index - 1).toNat)
                default).announced_milestones
            rw [if_neg (fun hc => hc heq2.symm)]
          · have hne2 : t ≠ ((sort_events gs.events).getD
                ((index - 1).toNat) default).timestamp := hne
            show (if ((sort_events gs.events).getD ((index - 1).toNat)
                default).timestamp ≠ t then some []
              else ((sort_events gs.events).getD ((index - 1).toNat)
                default).announced_milestones) = some []
            rw [if_pos (fun hc => hne2 hc.symm)]

/-- Witness for `editevent_preserves_or_resets_announced`: a name-only
edit of the first fixture event succeeds and keeps its announced list. -/
theorem editevent_preserves_or_resets_announced_witness :
    ∃ ev2 : Event,
      ({ wGS with events := wGS.events.set 0 wEv1 } : GuildState).events =
        (sort_events wGS.events).set (((1 : Int) - 1).toNat) ev2
      ∧ ev2.milestones =
          ((sort_events wGS.events).getD (((1 : Int) - 1).toNat)
            default).milestones
      ∧ (ev2.timestamp =
            ((sort_events wGS.events).getD (((1 : Int) - 1).toNat)
              default).timestamp →
          ev2.announced_milestones =
            ((sort_events wGS.events).getD (((1 : Int) - 1).toNat)
              default).announced_milestones)
      ∧ (ev2.timestamp ≠
            ((sort_events wGS.events).getD (((1 : Int) - 1).toNat)
              default).timestamp →
          ev2.announced_milestones = some []) := by
  have hsort : sort_events wGS.events = wGS.events :=
    sort_events_of_sorted (by decide)
  have h1 : ¬ (sort_events wGS.events = []) := by rw [hsort]; decide
  have h2 : ¬ ((1 : Int) < 1 ∨ (1 : Int) > ((sort_events wGS.events).length : Int)) := by
    rw [hsort]; decide
  have h0 : editevent wGS 1 none none =
      ({ wGS with events := wGS.events.set 0 wEv1 }, .ok ()) := by
    simp only [editevent]
    rw [if_neg h1, if_neg h2, hsort]
    rfl
  exact editevent_preserves_or_resets_announced wGS 1 none none _ () h0

/-- Counterexample to C5 as stated: a snapshot holding one guild whose
single event record carries only the always-present keys loads with that
record unchanged — its `milestones` key is still absent (`none`) after
load, not backfilled to the default list (and likewise
`announced_milestones`). -/
theorem load_no_backfill_cex :
    (startupLoad (some rawC5)).guilds = [("1", { events := [rawEv] })]
    ∧ rawEv.milestones = none
    ∧ rawEv.announced_milestones = none
    ∧ ¬ (rawEv.milestones = some DEFAULT_MILESTONES) := by
  refine ⟨?_, rfl, rfl, by simp [rawEv]⟩
  simp [startupLoad, load_state, rawC5, sort_events]

/-- C5 (amended): load failure degrades to the empty store, the top-level
maps are defaulted, every guild’s event list is re-sorted (a permutation
of exactly the stored records, each with all its fields unchanged — no
backfill happens on load), and the documented defaults are instead
applied at every read site by the accessor functions. -/
theorem load_resorts_and_reads_defaults :
    load_state none = { guilds := [], user_links := [] }
    ∧ (∀ r : RawState,
        (load_state (some r)).guilds = r.guilds.getD []
        ∧ (load_state (some r)).user_links = r.user_links.getD [])
    ∧ (∀ (f : Option RawState) (g : String × GuildState),
        g ∈ (startupLoad f).guilds →
        ∃ g0 : String × GuildState, g0 ∈ (load_state f).guilds
          ∧ g.1 = g0.1
          ∧ g.2.events = sort_events g0.2.events
          ∧ g.2.events.Perm g0.2.events
          ∧ (∀ ev ∈ g.2.events, ev ∈ g0.2.events)
          ∧ g.2.event_channel_id = g0.2.event_channel_id
          ∧ g.2.pinned_message_id = g0.2.pinned_message_id
          ∧ g.2.welcomed = g0.2.welcomed
          ∧ g.2.timezone = g0.2.timezone
          ∧ g.2.mention_role_id = g0.2.mention_role_id)
    ∧ (∀ ev : Event, ev.milestones = none →
        ev.milestonesD = DEFAULT_MILESTONES)
    ∧ (∀ ev : Event, ev.announced_milestones = none → ev.announcedD = [])
    ∧ (∀ ev : Event, ev.silenced = none → ev.silencedD = false) := by
  refine ⟨rfl, fun r => ⟨rfl, rfl⟩, ?_, ?_, ?_, ?_⟩
  · intro f g hg
    simp only [startupLoad, List.mem_map] at hg
    obtain ⟨g0, hg0, rfl⟩ := hg
    refine ⟨g0, hg0, rfl, rfl, sort_events_perm _, ?_, rfl, rfl, rfl, rfl, rfl⟩
    intro ev hev
    exact ((sort_events_perm g0.2.events).mem_iff).mp hev
  · intro ev h
    simp [Event.milestonesD, h]
  · intro ev h
    simp [Event.announcedD, h]
  · intro ev h
    simp [Event.silencedD, h]

/-- Witness for `load_resorts_and_reads_defaults`: reading the milestones
of the fixture’s older-schema record yields the default list. -/
theorem load_resorts_and_reads_defaults_witness :
    rawEv.milestonesD = DEFAULT_MILESTONES :=
  load_resorts_and_reads_defaults.2.2.2.1 rawEv rfl

end Chromie
